import Mathlib

/-!
Verification of the semantic tool-search subsystem of the mcphub
repository, as a shallow embedding in Lean.

Scope of the embedding, with the source location each definition follows:

* the vector embedding repository, src/db/repositories/VectorEmbeddingRepository.ts
  (saveEmbedding, searchSimilar, searchByText);
* the offline fallback vectorizer and the search orchestrator,
  src/services/vectorSearchService.ts in its revision that uses the
  network embedding provider (generateFallbackEmbedding,
  saveToolsAsVectorEmbeddings, searchToolsByVector,
  checkDatabaseVectorDimensions);
* the startup vector index setup, src/db/connection.ts (initializeDatabase);
* the dual backend adapters, src/models/UserAdapter and
  src/services/serverConfigAdapter.ts (findUserByUsername, getServersInfo);
* the request parameter handling of the vector search controller,
  src/controllers/vectorSearchController.ts (searchTools).

Modelling conventions: JavaScript numbers are modelled as exact
rationals.  The cosine distance operator of the external pgvector
database engine is a parameter of the store model (the repository only
emits the SQL text; the engine computes the distance).  Fallible
operations - a database statement, a network embedding call - are
modelled with Except or with an explicit failure oracle, and a
JavaScript try/catch becomes a match on the Except value.  JSON.parse
applied to the metadata column is an external builtin and is modelled as
a parameter producing an optional structured document.
-/

namespace Mcphub

/-! ## Data model: embedding records and the store -/

/-- Keys of an inputSchema JSON object together with the keys of its
properties member (when the properties member is itself an object).
This is the only information about an input schema the source ever
inspects. -/
structure SchemaInfo where
  keys : List String
  propertiesKeys : Option (List String)
deriving DecidableEq

/-- Structured metadata document for a tool record, as read back by
JSON.parse: each field is optional because the parsed document may lack
it.  Mirrors the object built in saveToolsAsVectorEmbeddings. -/
structure ToolMeta where
  serverName : Option String
  toolName : Option String
  description : Option String
  inputSchema : Option SchemaInfo
deriving DecidableEq

/-- Metadata value attached to a stored embedding record.  When a record
is read back from the database the metadata column holds either a JSON
string, a structured document, or some other value; the source inspects
it with a typeof string test. -/
inductive Metadata where
  | strVal (s : String)
  | docVal (o : ToolMeta)
  | nullVal
deriving DecidableEq

/-- One row of the vector_embeddings table, following the entity fields
assigned in VectorEmbeddingRepository (timestamps omitted: no claim
mentions them). -/
structure VectorEmbedding where
  content_type : String
  content_id : String
  text_content : String
  embedding : List ℚ
  dimensions : ℕ
  metadata : Metadata
  model : String
deriving DecidableEq

/-- The persisted table, as the list of its rows. -/
abbrev Store := List VectorEmbedding

/-- Predicate selecting the row with the given content identity, the
unique key used by findByContentIdentity. -/
def keyMatches (ct cid : String) (r : VectorEmbedding) : Bool :=
  r.content_type == ct && r.content_id == cid

/-- Embedding of VectorEmbeddingRepository.findByContentIdentity: the
first row with the given content type and content id. -/
def findByContentIdentity (st : Store) (ct cid : String) : Option VectorEmbedding :=
  st.find? (keyMatches ct cid)

/-- Field assignments performed by saveEmbedding on an existing entity:
text content, embedding, dimensions (the length of the embedding
argument), metadata and model are overwritten, the key fields stay. -/
def updateRecord (text : String) (emb : List ℚ) (meta : Metadata)
    (modelName : String) (x : VectorEmbedding) : VectorEmbedding :=
  { x with text_content := text, embedding := emb,
           dimensions := emb.length, metadata := meta, model := modelName }

/-- Fresh entity built by saveEmbedding when no record exists for the
key. -/
def newRecord (ct cid text : String) (emb : List ℚ) (meta : Metadata)
    (modelName : String) : VectorEmbedding :=
  { content_type := ct, content_id := cid, text_content := text,
    embedding := emb, dimensions := emb.length, metadata := meta,
    model := modelName }

/-- Embedding of VectorEmbeddingRepository.saveEmbedding: look the key
up, create a fresh entity or reuse the found one, assign text, embedding,
dimensions (the length of the embedding argument), metadata and model,
and persist it (replace in place on update, append on insert). -/
def saveEmbedding (st : Store) (ct cid text : String) (emb : List ℚ)
    (meta : Metadata) (modelName : String) : Store :=
  match findByContentIdentity st ct cid with
  | some _ =>
      st.map (fun x =>
        if keyMatches ct cid x then updateRecord text emb meta modelName x else x)
  | none =>
      st ++ [newRecord ct cid text emb meta modelName]

/-! ## Similarity search

The searchSimilar method emits one SQL query; the database engine
evaluates, for every row, the expression 1 - (embedding <=> query),
keeps the rows where that value is strictly greater than the threshold
parameter, orders descending and applies the limit.  The engine operator
<=> is the cosine distance; it is external to the repository and enters
the model as the parameter dist. -/

/-- Similarity of a stored row against the query vector, the SQL
expression 1 - (vector_embedding.embedding <=> :embedding). -/
def simOf (dist : List ℚ → List ℚ → ℚ) (q : List ℚ) (r : VectorEmbedding) : ℚ :=
  1 - dist q r.embedding

/-- Content type filter of searchSimilar: an IN clause is added only
when the contentTypes argument is present and nonempty. -/
def ctOk (cts : Option (List String)) (r : VectorEmbedding) : Bool :=
  match cts with
  | none => true
  | some l => if 0 < l.length then l.contains r.content_type else true

/-- Rows surviving the WHERE clause of searchSimilar, each paired with
its computed similarity. -/
def candidateRows (dist : List ℚ → List ℚ → ℚ) (st : Store) (q : List ℚ)
    (threshold : ℚ) (cts : Option (List String)) : List (VectorEmbedding × ℚ) :=
  ((st.filter (ctOk cts)).map (fun r => (r, simOf dist q r))).filter
    (fun p => decide (threshold < p.2))

/-- Comparison realizing ORDER BY similarity DESC. -/
def descBySim (a b : VectorEmbedding × ℚ) : Bool := decide (b.2 ≤ a.2)

/-- Embedding of VectorEmbeddingRepository.searchSimilar: filter by
threshold and content type, order by similarity descending, cap at the
limit. -/
def searchSimilar (dist : List ℚ → List ℚ → ℚ) (st : Store) (q : List ℚ)
    (limit : ℕ) (threshold : ℚ) (cts : Option (List String)) :
    List (VectorEmbedding × ℚ) :=
  ((candidateRows dist st q threshold cts).mergeSort descBySim).take limit

/-- Exact square root on rationals whose numerator and denominator are
perfect squares; used only to instantiate the abstract cosine distance
on concrete witness vectors where the value is exact. -/
def ratSqrt (q : ℚ) : ℚ := (Nat.sqrt q.num.toNat : ℚ) / (Nat.sqrt q.den : ℚ)

/-- Dot product of two vectors. -/
def dotProd (a b : List ℚ) : ℚ := (List.zipWith (fun x y => x * y) a b).sum

/-- Sum of squares of a vector. -/
def sumSq (a : List ℚ) : ℚ := (a.map (fun x => x * x)).sum

/-- Cosine distance, the pgvector <=> operator: one minus the cosine of
the angle between the vectors.  Exact on inputs whose squared norms
multiply to a perfect square, which covers every concrete vector used in
the witnesses below. -/
def ratCosineDistance (a b : List ℚ) : ℚ :=
  1 - dotProd a b / ratSqrt (sumSq a * sumSq b)

/-- Invariant of claim C2: every stored row records as dimensions the
length of its embedding. -/
def DimInvariant (st : Store) : Prop := ∀ r ∈ st, r.dimensions = r.embedding.length

/-! ## Helper lemmas about the store -/

/-- The record update performed by saveEmbedding does not touch the key
fields, so the key predicate is invariant under it. -/
lemma keyMatches_update (text : String) (emb : List ℚ) (meta : Metadata)
    (modelName : String) (kt kc : String) (x : VectorEmbedding) :
    keyMatches kt kc (updateRecord text emb meta modelName x) = keyMatches kt kc x := by
  simp [keyMatches, updateRecord]

lemma find?_map_of_pred_invariant {α : Type} (p : α → Bool) (f : α → α)
    (hf : ∀ x, p (f x) = p x) (l : List α) :
    (l.map f).find? p = (l.find? p).map f := by
  induction l with
  | nil => simp
  | cons a l ih =>
    by_cases h : p a = true
    · simp [List.find?_cons, hf a, h]
    · simp only [Bool.not_eq_true] at h
      simp [List.find?_cons, hf a, h, ih]

/-! ## Claim C1: filtering, ordering and capping of similaritySearch -/

/-- C1 (amended).  For every distance operator, store, query vector,
limit, threshold and content type filter, searchSimilar returns only
stored records, each paired with its similarity 1 - dist(query, row),
keeps only rows with similarity strictly greater than the threshold,
orders descending by similarity and returns at most limit rows.  The
no-filtering reading of a negative threshold holds only below -1: when
the threshold is smaller than -1 and every similarity is at least -1
(the range of cosine similarity), no record passing the content type
filter is excluded by the threshold filter.  A merely negative threshold
still excludes records whose similarity is at most the threshold, as the
counterexample below shows. -/
theorem searchSimilar_filters_sorts_limits
    (dist : List ℚ → List ℚ → ℚ) (st : Store) (q : List ℚ)
    (limit : ℕ) (threshold : ℚ) (cts : Option (List String)) :
    (∀ p ∈ searchSimilar dist st q limit threshold cts,
        p.1 ∈ st ∧ ctOk cts p.1 = true ∧ p.2 = simOf dist q p.1 ∧ threshold < p.2)
    ∧ (searchSimilar dist st q limit threshold cts).Pairwise
        (fun a b => b.2 ≤ a.2)
    ∧ (searchSimilar dist st q limit threshold cts).length ≤ limit
    ∧ (threshold < -1 → (∀ r ∈ st, -1 ≤ simOf dist q r) →
        ∀ r ∈ st, ctOk cts r = true →
          (r, simOf dist q r) ∈ candidateRows dist st q threshold cts) := by
  refine ⟨?_, ?_, ?_, ?_⟩
  · intro p hp
    have hp1 : p ∈ (candidateRows dist st q threshold cts).mergeSort descBySim :=
      List.mem_of_mem_take hp
    have hp2 : p ∈ candidateRows dist st q threshold cts :=
      (List.mergeSort_perm (candidateRows dist st q threshold cts) descBySim).mem_iff.mp hp1
    unfold candidateRows at hp2
    rcases List.mem_filter.mp hp2 with ⟨hmem, hthr⟩
    rcases List.mem_map.mp hmem with ⟨r, hr, hpr⟩
    rcases List.mem_filter.mp hr with ⟨hrst, hrct⟩
    subst hpr
    exact ⟨hrst, hrct, rfl, of_decide_eq_true hthr⟩
  · have hs := @List.sorted_mergeSort (VectorEmbedding × ℚ) descBySim
      (fun a b c hab hbc => by
        simp only [descBySim, decide_eq_true_eq] at hab hbc ⊢
        exact le_trans hbc hab)
      (fun a b => by
        simp only [descBySim, Bool.or_eq_true, decide_eq_true_eq]
        exact le_total b.2 a.2)
      (candidateRows dist st q threshold cts)
    have hsub : List.Sublist (searchSimilar dist st q limit threshold cts)
        ((candidateRows dist st q threshold cts).mergeSort descBySim) :=
      List.take_sublist _ _
    refine (hs.sublist hsub).imp ?_
    intro a b hab
    simpa [descBySim] using hab
  · unfold searchSimilar
    exact List.length_take_le _ _
  · intro ht hge r hr hct
    unfold candidateRows
    refine List.mem_filter.mpr ⟨List.mem_map_of_mem _ (List.mem_filter.mpr ⟨hr, hct⟩), ?_⟩
    exact decide_eq_true (lt_of_lt_of_le ht (hge r hr))

/-- Concrete record used by the C1 counterexample: a stored tool row
whose embedding points exactly opposite to the query vector, so its
similarity is -1. -/
def cexRecord : VectorEmbedding :=
  { content_type := "tool", content_id := "weather:getForecast",
    text_content := "getForecast d", embedding := [(-1 : ℚ)],
    dimensions := 1, metadata := .nullVal, model := "fallback" }

/-- C1 counterexample.  With the negative threshold -1/2, the stored
record with similarity -1 (cosine distance 2 from the query) is excluded
by the threshold filter, so the search output is empty: a negative
threshold does not mean that no record is excluded. -/
theorem searchSimilar_negative_threshold_cex :
    (-(1:ℚ)/2 < 0)
    ∧ ratCosineDistance [(1:ℚ)] [(-1:ℚ)] = 2
    ∧ candidateRows ratCosineDistance [cexRecord] [(1:ℚ)] (-(1:ℚ)/2) (some ["tool"]) = []
    ∧ searchSimilar ratCosineDistance [cexRecord] [(1:ℚ)] 10 (-(1:ℚ)/2) (some ["tool"]) = [] := by
  refine ⟨by norm_num, ?_, ?_, ?_⟩
  · simp [ratCosineDistance, dotProd, sumSq, ratSqrt]
    norm_num
  · simp [candidateRows, ctOk, simOf, ratCosineDistance, dotProd, sumSq, ratSqrt, cexRecord]
  · simp [searchSimilar, candidateRows, ctOk, simOf, ratCosineDistance, dotProd, sumSq,
      ratSqrt, cexRecord]

/-- Witness for the C1 theorem: the amended no-filtering clause applied
at a concrete input, with threshold -2 strictly below -1 and the
similarity bound discharged on the one stored record. -/
theorem searchSimilar_filters_sorts_limits_witness :
    (cexRecord, simOf ratCosineDistance [(1:ℚ)] cexRecord) ∈
      candidateRows ratCosineDistance [cexRecord] [(1:ℚ)] (-2) (some ["tool"]) := by
  refine (searchSimilar_filters_sorts_limits ratCosineDistance [cexRecord] [(1:ℚ)]
      10 (-2) (some ["tool"])).2.2.2 (by norm_num) ?_ cexRecord (by simp) (by simp [ctOk, cexRecord])
  intro r hr
  have hrc : r = cexRecord := by simpa using hr
  subst hrc
  simp [simOf, ratCosineDistance, dotProd, sumSq, ratSqrt, cexRecord]

/-! ## Claim C2: dimensions always equal the embedding length -/

/-- C2.  After every saveEmbedding call the stored record for the given
content identity exists and records as dimensions the length of the
embedding that was passed in, for insert and replace alike; and the
store wide invariant that every row satisfies dimensions equal to the
length of its embedding is preserved by every save, so it holds for
every record the store ever persists. -/
theorem saveEmbedding_dimensions (st : Store) (ct cid text : String) (emb : List ℚ)
    (meta : Metadata) (modelName : String) :
    (∃ r, findByContentIdentity (saveEmbedding st ct cid text emb meta modelName) ct cid
            = some r
        ∧ r.dimensions = emb.length ∧ r.embedding = emb ∧ r.dimensions = r.embedding.length)
    ∧ (DimInvariant st → DimInvariant (saveEmbedding st ct cid text emb meta modelName)) := by
  constructor
  · unfold saveEmbedding
    cases h : findByContentIdentity st ct cid with
    | some r0 =>
      have hkey : keyMatches ct cid r0 = true := List.find?_some h
      refine ⟨updateRecord text emb meta modelName r0, ?_, rfl, rfl, rfl⟩
      unfold findByContentIdentity at h ⊢
      rw [find?_map_of_pred_invariant (keyMatches ct cid) _ (fun x => by
        by_cases hx : keyMatches ct cid x = true
        · simp [hx, keyMatches_update]
        · simp only [Bool.not_eq_true] at hx
          simp [hx]), h]
      simp [hkey]
    | none =>
      refine ⟨newRecord ct cid text emb meta modelName, ?_, rfl, rfl, rfl⟩
      unfold findByContentIdentity at h ⊢
      rw [List.find?_append, h]
      simp [keyMatches, newRecord]
  · intro hinv r hr
    unfold saveEmbedding at hr
    cases h : findByContentIdentity st ct cid with
    | some r0 =>
      rw [h] at hr
      rcases List.mem_map.mp hr with ⟨x, hx, hxr⟩
      by_cases hk : keyMatches ct cid x = true
      · rw [if_pos hk] at hxr
        subst hxr
        rfl
      · simp only [Bool.not_eq_true] at hk
        rw [if_neg (by simp [hk])] at hxr
        subst hxr
        exact hinv x hx
    | none =>
      rw [h] at hr
      rcases List.mem_append.mp hr with hx | hx
      · exact hinv r hx
      · have : r = newRecord ct cid text emb meta modelName := by simpa using hx
        subst this
        rfl

/-- Witness for the C2 theorem: saving a two dimensional embedding into
the singleton store holding cexRecord (a replace) and into the empty
store (an insert); the invariant hypothesis of the preservation part is
discharged on the singleton store. -/
theorem saveEmbedding_dimensions_witness :
    (∃ r, findByContentIdentity
        (saveEmbedding [cexRecord] "tool" "weather:getForecast" "t"
          [(1:ℚ), 0] .nullVal "m") "tool" "weather:getForecast" = some r
        ∧ r.dimensions = 2 ∧ r.embedding = [(1:ℚ), 0]
        ∧ r.dimensions = r.embedding.length)
    ∧ DimInvariant (saveEmbedding [cexRecord] "tool" "weather:getForecast" "t"
        [(1:ℚ), 0] .nullVal "m") := by
  have h := saveEmbedding_dimensions [cexRecord] "tool" "weather:getForecast" "t"
    [(1:ℚ), 0] .nullVal "m"
  refine ⟨h.1, h.2 ?_⟩
  intro r hr
  have : r = cexRecord := by simpa using hr
  subst this
  rfl

/-! ## Claim C3: the offline fallback vectorizer is total and deterministic

Embedding of generateFallbackEmbedding from the vector search service.
The generateEmbedding placeholder of the earlier service revision runs
the identical computation, so one embedding covers both cited symbols. -/

/-- Width of the fallback vectors, the FALLBACK_DIMENSIONS constant. -/
def FALLBACK_DIMENSIONS : ℕ := 100

/-- The fixed vocabulary list of the fallback vectorizer, in source
order. -/
def fallbackVocabulary : List String :=
  ["search", "find", "get", "fetch", "retrieve", "query", "map", "location",
   "weather", "file", "directory", "email", "message", "send", "create",
   "update", "delete", "browser", "web", "page", "click", "navigate",
   "screenshot", "automation", "database", "table", "record", "insert",
   "select", "schema", "data", "image", "photo", "video", "media", "upload",
   "download", "convert", "text", "document", "pdf", "excel", "word",
   "format", "parse", "api", "rest", "http", "request", "response", "json",
   "xml", "time", "date", "calendar", "schedule", "reminder", "clock",
   "math", "calculate", "number", "sum", "average", "statistics", "user",
   "account", "login", "auth", "permission", "role"]

/-- Character level worker for splitWs: the skipping flag records that
the scanner stands inside a whitespace run whose piece boundary was
already emitted, acc holds the characters of the current piece in
reverse. -/
def splitWsGo (skipping : Bool) (acc : List Char) : List Char → List String
  | [] => [String.mk acc.reverse]
  | c :: rest =>
    if c.isWhitespace then
      if skipping then splitWsGo true [] rest
      else String.mk acc.reverse :: splitWsGo true [] rest
    else splitWsGo false (c :: acc) rest

/-- Models the JavaScript String.split with the regular expression for
one or more whitespace characters: the string is cut at maximal nonempty
whitespace runs; a run at the very start or very end contributes a
leading or trailing empty piece, while interior runs never produce empty
pieces, and the empty string yields the one element list of the empty
string. -/
def splitWs (s : String) : List String := splitWsGo false [] s.data

/-- Sum of the character codes of a word, the hash of the fallback
vectorizer.  JavaScript charCodeAt yields UTF-16 code units, which agree
with code points on the basic multilingual plane. -/
def charCodeSum (w : String) : ℕ := (w.data.map Char.toNat).sum

/-- One iteration of the words.forEach loop of the fallback vectorizer:
bump the bag of words slot when the word occurs in the vocabulary (the
source guards the found index against the vector length), then add a
hash derived perturbation of 1/10. -/
def addWord (v : List ℚ) (w : String) : List ℚ :=
  let v1 := match fallbackVocabulary.findIdx? (fun x => x == w) with
    | some i => if i < v.length then v.set i (v.getD i 0 + 1) else v
    | none => v
  let h := charCodeSum w
  v1.set (h % v1.length) (v1.getD (h % v1.length) 0 + 1 / 10)

/-- Embedding of generateFallbackEmbedding.  Math.sqrt is an external
deterministic builtin and enters as the parameter sqrtf; the source
lowercases the text, splits it on whitespace runs, folds the words into
a bag of words vector with hash perturbations, and L2 normalizes unless
the magnitude is zero, in which case the raw vector is returned. -/
def generateFallbackEmbedding (sqrtf : ℚ → ℚ) (text : String) : List ℚ :=
  let words := splitWs text.toLower
  let vector := words.foldl addWord (List.replicate FALLBACK_DIMENSIONS 0)
  let magnitude := sqrtf (sumSq vector)
  if 0 < magnitude then vector.map (fun val => val / magnitude) else vector

lemma addWord_length (v : List ℚ) (w : String) : (addWord v w).length = v.length := by
  unfold addWord
  cases h : fallbackVocabulary.findIdx? (fun x => x == w) with
  | none => simp
  | some i =>
    by_cases hi : i < v.length
    · simp [hi]
    · simp [hi]

lemma foldl_addWord_length (ws : List String) (v : List ℚ) :
    (ws.foldl addWord v).length = v.length := by
  induction ws generalizing v with
  | nil => rfl
  | cons w ws ih => rw [List.foldl_cons, ih, addWord_length]

/-- C3.  The offline fallback vectorizer is a total function of the
input text (and of the fixed square root builtin): on every input it
returns a vector of exactly FALLBACK_DIMENSIONS entries, and two
invocations on the same text yield element-wise identical vectors.  The
embedding is a pure function, so the equality of two runs is
definitional; the totality content is that every input produces a full
width vector with no failing path. -/
theorem generateFallbackEmbedding_total_deterministic :
    ∀ (sqrtf : ℚ → ℚ) (t : String),
      (generateFallbackEmbedding sqrtf t).length = FALLBACK_DIMENSIONS
      ∧ generateFallbackEmbedding sqrtf t = generateFallbackEmbedding sqrtf t := by
  intro sqrtf t
  refine ⟨?_, rfl⟩
  unfold generateFallbackEmbedding
  dsimp only
  split
  · simp [foldl_addWord_length]
  · simp [foldl_addWord_length]

/-! ## Claim C4: the dual backend adapter falls back transparently

Embedding of two wrapped operations cited by the claim: the user adapter
findUserByUsername and the server config adapter getServersInfo.  The
database repository call is modelled as an Except valued function; the
try/catch of the source becomes a match, and the file backed
implementation enters as a plain function since the source calls it
outside any catch.  The adapter result type carries no error case: every
database error is caught, which is the non propagation half of the
claim. -/

/-- User record shape exposed by the adapters (the IUser interface). -/
structure IUser where
  username : String
  password : String
  isAdmin : Bool
deriving DecidableEq

/-- User entity returned by the database repository. -/
structure DbUser where
  username : String
  password : String
  isAdmin : Bool
deriving DecidableEq

/-- Field mapping applied to a database user entity before returning it
to the caller. -/
def toIUser (u : DbUser) : IUser :=
  { username := u.username, password := u.password, isAdmin := u.isAdmin }

/-- Embedding of the user adapter findUserByUsername: when the database
is routed, try the repository and shape normalize the hit; on a thrown
error fall back to the file implementation; without database routing go
to the file implementation directly. -/
def findUserByUsername (useDb : Bool)
    (dbFind : String → Except String (Option DbUser))
    (fileFind : String → Option IUser) (username : String) : Option IUser :=
  if useDb then
    match dbFind username with
    | .ok (some u) => some (toIUser u)
    | .ok none => none
    | .error _ => fileFind username
  else fileFind username

/-- Server config entity returned by the database repository (the fields
read by getServersInfo). -/
structure DbServerConfig where
  name : String
  enabled : Bool
  createdAt : Option ℕ
deriving DecidableEq

/-- Server info record shape returned by getServersInfo (tool list
elements are irrelevant to the claim and modelled by strings). -/
structure ServerInfoOut where
  name : String
  status : String
  errorMsg : Option String
  tools : List String
  createTime : ℕ
  enabled : Bool
deriving DecidableEq

/-- Embedding of the server config adapter getServersInfo: when the
database is routed, list the configurations and shape normalize them
(status disconnected, no error, no tools, creation time defaulted to the
current clock); on a thrown error fall back to the file implementation. -/
def getServersInfo (useDb : Bool)
    (dbFindAll : Unit → Except String (List DbServerConfig))
    (fileGet : List ServerInfoOut) (now : ℕ) : List ServerInfoOut :=
  if useDb then
    match dbFindAll () with
    | .ok cfgs => cfgs.map (fun c =>
        { name := c.name, status := "disconnected", errorMsg := none, tools := [],
          createTime := c.createdAt.getD now, enabled := c.enabled })
    | .error _ => fileGet
  else fileGet

/-- C4.  For the wrapped operations cited by the claim: when the global
database flag is enabled and the database repository throws, the adapter
returns exactly the result the file backed implementation returns for
the same arguments.  The adapter result types have no error case, so the
database error cannot reach the caller. -/
theorem adapter_fallback_transparent :
    (∀ (dbFind : String → Except String (Option DbUser))
       (fileFind : String → Option IUser) (username e : String),
        dbFind username = .error e →
        findUserByUsername true dbFind fileFind username = fileFind username)
    ∧ (∀ (dbFindAll : Unit → Except String (List DbServerConfig))
         (fileGet : List ServerInfoOut) (now : ℕ) (e : String),
        dbFindAll () = .error e →
        getServersInfo true dbFindAll fileGet now = fileGet) := by
  constructor
  · intro dbFind fileFind username e h
    simp [findUserByUsername, h]
  · intro dbFindAll fileGet now e h
    simp [getServersInfo, h]

/-- Witness for the C4 theorem: a database repository that throws on
every call, concrete file backed results, and the adapter outputs equal
to them. -/
theorem adapter_fallback_transparent_witness :
    findUserByUsername true (fun _ => .error "connection refused")
        (fun _ => some { username := "alice", password := "pw", isAdmin := false })
        "alice"
      = some { username := "alice", password := "pw", isAdmin := false }
    ∧ getServersInfo true (fun _ => .error "connection refused")
        [{ name := "weather", status := "connected", errorMsg := none, tools := [],
           createTime := 7, enabled := true }] 9
      = [{ name := "weather", status := "connected", errorMsg := none, tools := [],
           createTime := 7, enabled := true }] := by
  exact ⟨adapter_fallback_transparent.1 _ _ "alice" "connection refused" rfl,
         adapter_fallback_transparent.2 _ _ 9 "connection refused" rfl⟩

/-! ## Claims C5 and C6: schema reconciliation and index strategies

The schema changing statements issued by checkDatabaseVectorDimensions
(the lazy schema reconciler of the vector search service) and by the
vector configuration block of initializeDatabase are modelled as an
inductive statement type acting on an abstract schema state; a failure
oracle says which statements the engine rejects, modelling thrown query
errors.  Each function returns the list of statements it issued, in
order, so that no-op and ordering claims are about an observable trace. -/

/-- Schema changing SQL statements of the two functions. -/
inductive Stmt where
  | dropIndex
  | alterColumn (dims : ℕ)
  | createIvfflat
  | createHnsw
  | createGin
deriving DecidableEq

/-- Schema state of the vector_embeddings table: whether the data source
is initialized, the declared width of the vector column (0 when none is
declared, following the atttypmod parsing of the source), whether the
similarity index exists, and the dimensions value of a sample stored row
when one exists (read by the startup configuration). -/
structure DbState where
  initialized : Bool
  dims : ℕ
  hasIndex : Bool
  sampleDims : Option ℕ
deriving DecidableEq

/-- Effect of a successful schema statement on the schema state. -/
def applyStmt (s : DbState) : Stmt → DbState
  | .dropIndex => { s with hasIndex := false }
  | .alterColumn d => { s with dims := d }
  | .createIvfflat => { s with hasIndex := true }
  | .createHnsw => { s with hasIndex := true }
  | .createGin => { s with hasIndex := true }

/-- Embedding of checkDatabaseVectorDimensions: return silently when the
data source is not initialized; read the declared column width; when it
is unset or differs from the needed width, drop the similarity index,
alter the column to the needed width and create the ivfflat index; any
failing statement aborts the function with a vector dimension check
error (the catch block rethrows).  No second index strategy exists
here. -/
def checkDatabaseVectorDimensions (fails : Stmt → Bool) (s : DbState)
    (needed : ℕ) : Except String DbState × List Stmt :=
  if s.initialized = false then (.ok s, [])
  else
    if s.dims = 0 ∨ s.dims ≠ needed then
      if fails .dropIndex then
        (.error "Vector dimension check failed", [.dropIndex])
      else
        let s1 := applyStmt s .dropIndex
        if fails (.alterColumn needed) then
          (.error "Vector dimension check failed", [.dropIndex, .alterColumn needed])
        else
          let s2 := applyStmt s1 (.alterColumn needed)
          if fails .createIvfflat then
            (.error "Vector dimension check failed",
             [.dropIndex, .alterColumn needed, .createIvfflat])
          else
            (.ok (applyStmt s2 .createIvfflat),
             [.dropIndex, .alterColumn needed, .createIvfflat])
    else (.ok s, [])

/-- C5.  The schema reconciler is idempotent: whenever a call of
checkDatabaseVectorDimensions for a positive target width succeeds, an
immediate second call for the same width issues no schema changing
statement, leaves the state untouched and returns without error.  The
positivity hypothesis is needed because the source treats a declared
width of zero as unset and would migrate again; a zero width vector
column is rejected by the engine, so a first call can only succeed as
required for widths at least one. -/
theorem checkDims_idempotent :
    ∀ (fails : Stmt → Bool) (s s1 : DbState) (w : ℕ) (l1 : List Stmt),
      0 < w →
      checkDatabaseVectorDimensions fails s w = (.ok s1, l1) →
      checkDatabaseVectorDimensions fails s1 w = (.ok s1, []) := by
  intro fails s s1 w l1 hw h
  unfold checkDatabaseVectorDimensions at h ⊢
  by_cases hinit : s.initialized = false
  · simp only [hinit, if_true, reduceIte] at h
    obtain ⟨hs, -⟩ := Prod.mk.injEq .. ▸ h
    cases hs
    cases Except.ok.inj (Prod.mk.inj h).1
    simp [hinit]
  · rw [if_neg hinit] at h
    by_cases hcond : s.dims = 0 ∨ s.dims ≠ w
    · rw [if_pos hcond] at h
      by_cases hd : fails .dropIndex
      · rw [if_pos hd] at h
        exact absurd (Prod.mk.inj h).1 (by simp)
      · rw [if_neg hd] at h
        by_cases ha : fails (.alterColumn w)
        · rw [if_pos ha] at h
          exact absurd (Prod.mk.inj h).1 (by simp)
        · rw [if_neg ha] at h
          by_cases hi : fails .createIvfflat
          · rw [if_pos hi] at h
            exact absurd (Prod.mk.inj h).1 (by simp)
          · rw [if_neg hi] at h
            cases Except.ok.inj (Prod.mk.inj h).1
            have hinit1 : s.initialized = true := by
              simpa using hinit
            simp [applyStmt, hinit1, hw.ne']
    · rw [if_neg hcond] at h
      cases Except.ok.inj (Prod.mk.inj h).1
      rw [if_neg hinit, if_neg hcond]
/-- Witness for the C5 theorem: a reconciliation from width 100 to width
50 on an initialized schema with no failing statement, followed by the
no-op second call the theorem yields. -/
theorem checkDims_idempotent_witness :
    checkDatabaseVectorDimensions (fun _ => false)
        { initialized := true, dims := 50, hasIndex := true, sampleDims := some 100 } 50
      = (.ok { initialized := true, dims := 50, hasIndex := true, sampleDims := some 100 }, []) :=
  checkDims_idempotent (fun _ => false)
    { initialized := true, dims := 100, hasIndex := true, sampleDims := some 100 }
    { initialized := true, dims := 50, hasIndex := true, sampleDims := some 100 }
    50 [.dropIndex, .alterColumn 50, .createIvfflat] (by norm_num) (by rfl)

/-- Fallback chain of the startup index setup of initializeDatabase: a
failure of the ivfflat attempt is caught and the hnsw strategy is tried;
a failure of hnsw is caught and the gin strategy is tried; a failure of
gin is merely warned about.  The argument tr carries the trace of the
statements already issued. -/
def tryHnswGin (fails : Stmt → Bool) (s : DbState) (tr : List Stmt) :
    DbState × List Stmt :=
  if fails .createHnsw then
    if fails .createGin then (s, tr ++ [.createHnsw, .createGin])
    else (applyStmt s .createGin, tr ++ [.createHnsw, .createGin])
  else (applyStmt s .createHnsw, tr ++ [.createHnsw])

/-- Step 3 of the vector configuration of initializeDatabase: read the
dimensions of a sample row (default 1536), alter the column to that
width and create the ivfflat index inside one try block; on any failure
in that block fall through to the hnsw strategy, then to the gin
strategy.  Total by construction: every exception is caught, so
initialization continues whatever the oracle rejects. -/
def setupVectorIndexes (fails : Stmt → Bool) (s : DbState) : DbState × List Stmt :=
  let dims := s.sampleDims.getD 1536
  if fails (.alterColumn dims) then tryHnswGin fails s [.alterColumn dims]
  else
    let s1 := applyStmt s (.alterColumn dims)
    if fails .createIvfflat then tryHnswGin fails s1 [.alterColumn dims, .createIvfflat]
    else (applyStmt s1 .createIvfflat, [.alterColumn dims, .createIvfflat])

/-- Vector configuration block of initializeDatabase for an existing
table: step 1 drops any existing index on the column (a failure is only
warned about), step 2 adjusts the column type only when it is not yet a
vector column (not schema relevant here and omitted), step 3 sets the
width and builds the index with the strategy chain. -/
def configureVectorSupport (fails : Stmt → Bool) (s : DbState) : DbState × List Stmt :=
  let s0 := if fails .dropIndex then s else applyStmt s .dropIndex
  let r := setupVectorIndexes fails s0
  (r.1, .dropIndex :: r.2)

/-- C6 (amended).  During startup database initialization the
approximate nearest neighbor index strategies are tried in order of
preference - ivfflat, then hnsw, then gin - each failure being caught
and the next strategy tried, and when every strategy fails the
initialization still completes, merely without an index.  During lazy
schema reconciliation, however, only the ivfflat strategy is attempted:
its failure aborts the triggering operation with a vector dimension
check error and no further strategy is tried, contrary to the claim as
stated (see the counterexample). -/
theorem index_strategies_in_order :
    (∀ (fails : Stmt → Bool) (s : DbState),
        fails .dropIndex = false →
        fails (.alterColumn (s.sampleDims.getD 1536)) = false →
        fails .createIvfflat = true → fails .createHnsw = true →
        fails .createGin = true →
        (configureVectorSupport fails s).2
          = [.dropIndex, .alterColumn (s.sampleDims.getD 1536), .createIvfflat,
             .createHnsw, .createGin]
        ∧ (configureVectorSupport fails s).1.hasIndex = false)
    ∧ (∀ (fails : Stmt → Bool) (s : DbState),
        fails .dropIndex = false →
        fails (.alterColumn (s.sampleDims.getD 1536)) = false →
        fails .createIvfflat = true → fails .createHnsw = false →
        (configureVectorSupport fails s).2
          = [.dropIndex, .alterColumn (s.sampleDims.getD 1536), .createIvfflat,
             .createHnsw]
        ∧ (configureVectorSupport fails s).1.hasIndex = true)
    ∧ (∀ (fails : Stmt → Bool) (s : DbState) (w : ℕ),
        s.initialized = true → (s.dims = 0 ∨ s.dims ≠ w) →
        fails .dropIndex = false → fails (.alterColumn w) = false →
        fails .createIvfflat = true →
        checkDatabaseVectorDimensions fails s w
          = (.error "Vector dimension check failed",
             [.dropIndex, .alterColumn w, .createIvfflat])) := by
  refine ⟨?_, ?_, ?_⟩
  · intro fails s hdrop halter hivf hhnsw hgin
    constructor
    · simp [configureVectorSupport, setupVectorIndexes, tryHnswGin, applyStmt,
        hdrop, halter, hivf, hhnsw, hgin]
    · simp [configureVectorSupport, setupVectorIndexes, tryHnswGin, applyStmt,
        hdrop, halter, hivf, hhnsw, hgin]
  · intro fails s hdrop halter hivf hhnsw
    constructor
    · simp [configureVectorSupport, setupVectorIndexes, tryHnswGin, applyStmt,
        hdrop, halter, hivf, hhnsw]
    · simp [configureVectorSupport, setupVectorIndexes, tryHnswGin, applyStmt,
        hdrop, halter, hivf, hhnsw]
  · intro fails s w hinit hcond hdrop halter hivf
    unfold checkDatabaseVectorDimensions
    simp [hinit, hcond, hdrop, halter, hivf]

/-- C6 counterexample.  A schema reconciliation triggered at width 50 on
a column currently of width 100, on an engine that rejects the ivfflat
index creation: the reconciler aborts with an error instead of trying
the next strategy or completing without an index, refuting the claim as
stated for the schema reconciliation path. -/
theorem reconciler_single_strategy_cex :
    checkDatabaseVectorDimensions (fun st => st == Stmt.createIvfflat)
        { initialized := true, dims := 100, hasIndex := true, sampleDims := some 100 } 50
      = (.error "Vector dimension check failed",
         [.dropIndex, .alterColumn 50, .createIvfflat]) := by
  rfl

/-- Witness for the C6 theorem: the all-fail chain and the hnsw success
chain evaluated on a concrete state, and the reconciler abort at a
concrete mismatch, all obtained by applying the theorem. -/
theorem index_strategies_in_order_witness :
    ((configureVectorSupport (fun st => st == Stmt.createIvfflat || st == Stmt.createHnsw || st == Stmt.createGin)
        { initialized := true, dims := 0, hasIndex := true, sampleDims := none }).2
      = [.dropIndex, .alterColumn 1536, .createIvfflat, .createHnsw, .createGin]
      ∧ (configureVectorSupport (fun st => st == Stmt.createIvfflat || st == Stmt.createHnsw || st == Stmt.createGin)
          { initialized := true, dims := 0, hasIndex := true, sampleDims := none }).1.hasIndex
        = false)
    ∧ checkDatabaseVectorDimensions (fun st => st == Stmt.createIvfflat)
        { initialized := true, dims := 0, hasIndex := false, sampleDims := none } 100
      = (.error "Vector dimension check failed",
         [.dropIndex, .alterColumn 100, .createIvfflat]) := by
  refine ⟨?_, ?_⟩
  · exact index_strategies_in_order.1
      (fun st => st == Stmt.createIvfflat || st == Stmt.createHnsw || st == Stmt.createGin)
      { initialized := true, dims := 0, hasIndex := true, sampleDims := none }
      rfl rfl rfl rfl rfl
  · exact index_strategies_in_order.2.2
      (fun st => st == Stmt.createIvfflat)
      { initialized := true, dims := 0, hasIndex := false, sampleDims := none }
      100 rfl (Or.inl rfl) rfl rfl rfl

/-! ## Claim C7: batch ingestion isolates per item failures

Embedding of saveToolsAsVectorEmbeddings from the vector search service
revision whose tool loop body runs inside its own try/catch.  The
embedding provider call is modelled as an Except valued function (its
internal offline fallback is irrelevant here: only whether the step
throws matters); the throwing of checkDatabaseVectorDimensions and of
the repository save are modelled by failure oracles. -/

/-- Tool descriptor consumed by the ingestion path: the name, the
description and the optional input schema information the source
inspects. -/
structure ToolInfo where
  name : String
  description : String
  inputSchema : Option SchemaInfo
deriving DecidableEq

/-- Searchable text assembled for a tool: name, description, the keys of
the schema other than type and properties, and the property names, with
empty pieces dropped (the filter over Boolean) and the rest joined by
single spaces. -/
def toolSearchableText (t : ToolInfo) : String :=
  String.intercalate " "
    (([t.name, t.description]
      ++ (match t.inputSchema with
          | some sch => sch.keys.filter (fun k => k != "type" && k != "properties")
          | none => [])
      ++ (match t.inputSchema with
          | some sch => sch.propertiesKeys.getD []
          | none => [])).filter (fun p => p != ""))

/-- Metadata document stored alongside a tool embedding. -/
def toolMetadata (serverName : String) (t : ToolInfo) : Metadata :=
  .docVal { serverName := some serverName, toolName := some t.name,
            description := some t.description, inputSchema := t.inputSchema }

/-- One iteration of the tool loop of saveToolsAsVectorEmbeddings: build
the searchable text, generate the embedding, check the schema width,
save.  The per tool catch turns any failing step into a skip that leaves
the store unchanged, and the loop continues with the next tool. -/
def saveToolStep (embedFn : String → Except String (List ℚ))
    (checkFails : ℕ → Bool) (saveFails : String → Bool)
    (modelName serverName : String) (st : Store) (tool : ToolInfo) : Store :=
  let text := toolSearchableText tool
  match embedFn text with
  | .error _ => st
  | .ok emb =>
    if checkFails emb.length then st
    else
      let cid := serverName ++ ":" ++ tool.name
      if saveFails cid then st
      else saveEmbedding st "tool" cid text emb (toolMetadata serverName tool) modelName

/-- Embedding of saveToolsAsVectorEmbeddings: nothing happens when the
database flag is off; otherwise the tools are processed strictly in
order, each inside its own try/catch.  The result is a plain store: the
batch returns normally whatever the per tool outcomes, since the outer
catch only logs. -/
def saveToolsAsVectorEmbeddings (useDb : Bool)
    (embedFn : String → Except String (List ℚ))
    (checkFails : ℕ → Bool) (saveFails : String → Bool)
    (modelName serverName : String) (tools : List ToolInfo) (st : Store) : Store :=
  if useDb = false then st
  else tools.foldl (saveToolStep embedFn checkFails saveFails modelName serverName) st

lemma find?_isSome_saveEmbedding (st : Store) (ct cid text : String) (emb : List ℚ)
    (meta : Metadata) (modelName kt kc : String)
    (h : (findByContentIdentity st kt kc).isSome = true) :
    (findByContentIdentity (saveEmbedding st ct cid text emb meta modelName)
        kt kc).isSome = true := by
  unfold saveEmbedding
  cases hfind : findByContentIdentity st ct cid with
  | some r0 =>
    unfold findByContentIdentity at h ⊢
    rw [find?_map_of_pred_invariant (keyMatches kt kc) _ (fun x => by
      by_cases hx : keyMatches ct cid x = true
      · simp [hx, keyMatches_update]
      · simp only [Bool.not_eq_true] at hx
        simp [hx])]
    simpa using h
  | none =>
    unfold findByContentIdentity at h ⊢
    rw [List.find?_append]
    cases hk : st.find? (keyMatches kt kc) with
    | some r => simp [hk]
    | none => rw [hk] at h; simp at h

lemma find?_isSome_saveToolStep (embedFn : String → Except String (List ℚ))
    (checkFails : ℕ → Bool) (saveFails : String → Bool)
    (modelName serverName kt kc : String) (st : Store) (tool : ToolInfo)
    (h : (findByContentIdentity st kt kc).isSome = true) :
    (findByContentIdentity
        (saveToolStep embedFn checkFails saveFails modelName serverName st tool)
        kt kc).isSome = true := by
  cases hembed : embedFn (toolSearchableText tool) with
  | error e => simpa [saveToolStep, hembed] using h
  | ok emb =>
    by_cases hc : checkFails emb.length
    · simpa [saveToolStep, hembed, hc] using h
    · by_cases hs : saveFails (serverName ++ ":" ++ tool.name)
      · simpa [saveToolStep, hembed, hc, hs] using h
      · have hsave := find?_isSome_saveEmbedding st "tool"
          (serverName ++ ":" ++ tool.name) (toolSearchableText tool) emb
          (toolMetadata serverName tool) modelName kt kc h
        simpa [saveToolStep, hembed, hc, hs] using hsave

lemma find?_isSome_foldl_saveToolStep (embedFn : String → Except String (List ℚ))
    (checkFails : ℕ → Bool) (saveFails : String → Bool)
    (modelName serverName kt kc : String) (tools : List ToolInfo) (st : Store)
    (h : (findByContentIdentity st kt kc).isSome = true) :
    (findByContentIdentity
        (tools.foldl (saveToolStep embedFn checkFails saveFails modelName serverName) st)
        kt kc).isSome = true := by
  induction tools generalizing st with
  | nil => exact h
  | cons t ts ih =>
    rw [List.foldl_cons]
    exact ih _ (find?_isSome_saveToolStep _ _ _ _ _ _ _ _ _ h)

/-- C7.  Batch ingestion isolates per item failures: the batch call
returns a store (its type has no error case: the outer catch swallows
everything), and every tool of the list whose own steps succeed - the
embedding call returns a vector, the dimension check does not throw for
that width, the save does not throw for that content id - ends up
persisted under the key (tool, server:name), regardless of the outcome
of every other tool in the list. -/
theorem saveTools_batch_isolation :
    ∀ (embedFn : String → Except String (List ℚ)) (checkFails : ℕ → Bool)
      (saveFails : String → Bool) (modelName serverName : String)
      (tools : List ToolInfo) (st : Store) (tool : ToolInfo) (emb : List ℚ),
      tool ∈ tools →
      embedFn (toolSearchableText tool) = .ok emb →
      checkFails emb.length = false →
      saveFails (serverName ++ ":" ++ tool.name) = false →
      (findByContentIdentity
          (saveToolsAsVectorEmbeddings true embedFn checkFails saveFails
            modelName serverName tools st)
          "tool" (serverName ++ ":" ++ tool.name)).isSome = true := by
  intro embedFn checkFails saveFails modelName serverName tools st tool emb
    hmem hembed hcheck hsave
  unfold saveToolsAsVectorEmbeddings
  simp only [Bool.true_eq_false, if_false, reduceIte]
  induction tools generalizing st with
  | nil => cases hmem
  | cons t ts ih =>
    rw [List.foldl_cons]
    rcases List.mem_cons.mp hmem with rfl | hts
    · apply find?_isSome_foldl_saveToolStep
      have hkey : (findByContentIdentity
          (saveEmbedding st "tool" (serverName ++ ":" ++ tool.name)
            (toolSearchableText tool) emb (toolMetadata serverName tool) modelName)
          "tool" (serverName ++ ":" ++ tool.name)).isSome = true := by
        obtain ⟨r, hr, -⟩ := (saveEmbedding_dimensions st "tool"
          (serverName ++ ":" ++ tool.name) (toolSearchableText tool) emb
          (toolMetadata serverName tool) modelName).1
        simp [hr]
      simpa [saveToolStep, hembed, hcheck, hsave] using hkey
    · exact ih _ hts

/-- Witness for the C7 theorem, the scenario of the specification: three
tools are ingested and the embedding provider throws exactly on the
middle one; the first and the third are persisted by the batch, which
itself returns normally. -/
theorem saveTools_batch_isolation_witness :
    (fun s => if s == "badTool" then (.error "boom" : Except String (List ℚ))
              else .ok [(1 : ℚ), 0]) "badTool" = .error "boom"
    ∧ (findByContentIdentity
        (saveToolsAsVectorEmbeddings true
          (fun s => if s == "badTool" then .error "boom" else .ok [(1 : ℚ), 0])
          (fun _ => false) (fun _ => false) "fallback" "weather"
          [{ name := "getForecast", description := "", inputSchema := none },
           { name := "badTool", description := "", inputSchema := none },
           { name := "sendEmail", description := "", inputSchema := none }] [])
        "tool" "weather:getForecast").isSome = true
    ∧ (findByContentIdentity
        (saveToolsAsVectorEmbeddings true
          (fun s => if s == "badTool" then .error "boom" else .ok [(1 : ℚ), 0])
          (fun _ => false) (fun _ => false) "fallback" "weather"
          [{ name := "getForecast", description := "", inputSchema := none },
           { name := "badTool", description := "", inputSchema := none },
           { name := "sendEmail", description := "", inputSchema := none }] [])
        "tool" "weather:sendEmail").isSome = true := by
  refine ⟨rfl, ?_, ?_⟩
  · exact saveTools_batch_isolation _ _ _ "fallback" "weather" _ []
      { name := "getForecast", description := "", inputSchema := none } [(1 : ℚ), 0]
      (by simp) (by rfl) rfl rfl
  · exact saveTools_batch_isolation _ _ _ "fallback" "weather" _ []
      { name := "sendEmail", description := "", inputSchema := none } [(1 : ℚ), 0]
      (by simp) (by rfl) rfl rfl

/-! ## Claims C8 and C10: the search orchestrator

Embedding of VectorEmbeddingRepository.searchByText and of
searchToolsByVector from the vector search service revision that parses
string metadata.  The embedding generation result and the repository
search are Except valued parameters; JSON.parse composed with the field
projections is the external parameter parseMeta, where none models a
parse exception and an absent field of the parsed document models an
undefined projection. -/

/-- Truthiness of an optional string under JavaScript rules: undefined
and the empty string are falsy. -/
def isTruthy : Option String → Bool
  | none => false
  | some s => s != ""

/-- Output row shape of searchToolsByVector.  A none inputSchema stands
for the empty object default. -/
structure ToolSearchResult where
  serverName : String
  toolName : String
  description : String
  inputSchema : Option SchemaInfo
  similarity : ℚ
  searchableText : String
deriving DecidableEq

/-- Leading run of non whitespace characters, the match of the anchored
regular expression for one or more non space characters: an empty run
models a failed match, which the source turns into the empty tool
name. -/
def takeNonWs : List Char → List Char
  | [] => []
  | c :: cs => if c.isWhitespace then [] else c :: takeNonWs cs

/-- Leading run of non underscore characters. -/
def takeNonUnderscore : List Char → List Char
  | [] => []
  | c :: cs => if c = '_' then [] else c :: takeNonUnderscore cs

/-- Drop the leading run of non whitespace characters. -/
def dropNonWs : List Char → List Char
  | [] => []
  | c :: cs => if c.isWhitespace then c :: cs else dropNonWs cs

/-- Drop the leading run of whitespace characters. -/
def dropWsRun : List Char → List Char
  | [] => []
  | c :: cs => if c.isWhitespace then dropWsRun cs else c :: cs

/-- Heuristic server name extraction: the underscore delimited leading
part of the tool name when the tool name has a nonempty non underscore
run followed by an underscore, and unknown otherwise. -/
def heuristicServerName (toolName : String) : String :=
  let cs := toolName.data
  let p := takeNonUnderscore cs
  if 0 < p.length ∧ p.length < cs.length then String.mk p else "unknown"

/-- Heuristic description extraction: remove the leading non whitespace
run and the whitespace run after it when the text starts with a non
whitespace character (the anchored match of the replace call), then trim
both ends. -/
def heuristicDescription (textContent : String) : String :=
  let cs := textContent.data
  let rest :=
    match cs with
    | [] => ([] : List Char)
    | c :: _ => if c.isWhitespace then cs else dropWsRun (dropNonWs cs)
  (String.mk rest).trim

/-- Fallback row assembly of searchToolsByVector when the metadata is
absent, not a string, fails to parse, or lacks a truthy server or tool
name: the tool name is the first whitespace delimited token of the
stored text, the server name its underscore delimited leading part, the
description the trimmed remainder, the schema the empty object
default. -/
def heuristicEntry (p : VectorEmbedding × ℚ) : ToolSearchResult :=
  let textContent := p.1.text_content
  let toolName := String.mk (takeNonWs textContent.data)
  { serverName := heuristicServerName toolName
    toolName := toolName
    description := heuristicDescription textContent
    inputSchema := none
    similarity := p.2
    searchableText := textContent }

/-- Row transformation of searchToolsByVector: when the metadata is a
string that parses to a document with truthy server and tool names, the
structured fields are returned (description and input schema defaulted
when falsy); otherwise the heuristic extraction from the stored text is
used.  Total: the parse exception is caught by the source and falls
through to the heuristic path. -/
def transformResult (parseMeta : String → Option ToolMeta)
    (p : VectorEmbedding × ℚ) : ToolSearchResult :=
  match p.1.metadata with
  | .strVal s =>
    match parseMeta s with
    | some o =>
      if isTruthy o.serverName && isTruthy o.toolName then
        { serverName := o.serverName.getD ""
          toolName := o.toolName.getD ""
          description := o.description.getD ""
          inputSchema := o.inputSchema
          similarity := p.2
          searchableText := p.1.text_content }
      else heuristicEntry p
    | none => heuristicEntry p
  | _ => heuristicEntry p

/-- Allowed servers post filter of searchToolsByVector: a row passes
only when its metadata is a string, the string parses, and the parsed
server name is a member of the supplied list; a non string metadata, a
parse exception or an undefined server name all yield false. -/
def metaServerAllowed (parseMeta : String → Option ToolMeta)
    (allowed : List String) (p : VectorEmbedding × ℚ) : Bool :=
  match p.1.metadata with
  | .strVal s =>
    match parseMeta s with
    | some o =>
      match o.serverName with
      | some n => allowed.contains n
      | none => false
    | none => false
  | _ => false

/-- Embedding of VectorEmbeddingRepository.searchByText: inside one try
block, obtain the embedding of the query text and run the similarity
search; any thrown error yields the empty list.  The two fallible steps
enter as parameters holding their outcome. -/
def searchByText (embedRes : Except String (List ℚ))
    (searchFn : List ℚ → Except String (List (VectorEmbedding × ℚ))) :
    List (VectorEmbedding × ℚ) :=
  match embedRes with
  | .error _ => []
  | .ok emb =>
    match searchFn emb with
    | .error _ => []
    | .ok rs => rs

/-- Embedding of searchToolsByVector: empty result when the database
flag is off; otherwise search by text, filter by the allowed server
names when a nonempty list is supplied, and transform every surviving
row.  The outer try/catch of the source makes the function total; the
model returns a plain list. -/
def searchToolsByVector (useDb : Bool) (parseMeta : String → Option ToolMeta)
    (embedRes : Except String (List ℚ))
    (searchFn : List ℚ → Except String (List (VectorEmbedding × ℚ)))
    (serverNames : Option (List String)) : List ToolSearchResult :=
  if useDb = false then []
  else
    let results := searchByText embedRes searchFn
    let filteredResults :=
      match serverNames with
      | some l => if 0 < l.length then results.filter (metaServerAllowed parseMeta l)
                  else results
      | none => results
    filteredResults.map (transformResult parseMeta)

/-- C8.  searchToolsByVector never propagates an exception: its result
type is a plain list because every fallible step is caught, and whenever
the embedding generation or the underlying repository search throws the
function returns the empty list (the result transformation is total in
the model because its only fallible operation, the JSON parse, is caught
inside the source and routed to the heuristic path).  With the database
flag off the result is empty as well. -/
theorem searchToolsByVector_no_propagation :
    ∀ (parseMeta : String → Option ToolMeta)
      (embedRes : Except String (List ℚ))
      (searchFn : List ℚ → Except String (List (VectorEmbedding × ℚ)))
      (serverNames : Option (List String)),
      (searchToolsByVector false parseMeta embedRes searchFn serverNames = [])
      ∧ (∀ e, embedRes = .error e →
          searchToolsByVector true parseMeta embedRes searchFn serverNames = [])
      ∧ (∀ emb e, embedRes = .ok emb → searchFn emb = .error e →
          searchToolsByVector true parseMeta embedRes searchFn serverNames = []) := by
  intro parseMeta embedRes searchFn serverNames
  refine ⟨by simp [searchToolsByVector], ?_, ?_⟩
  · intro e he
    cases serverNames with
    | none => simp [searchToolsByVector, searchByText, he]
    | some l => simp [searchToolsByVector, searchByText, he]
  · intro emb e he hs
    cases serverNames with
    | none => simp [searchToolsByVector, searchByText, he, hs]
    | some l => simp [searchToolsByVector, searchByText, he, hs]

/-- Witness for the C8 theorem: a failing embedding call and a failing
repository search, each yielding the empty result list at concrete
inputs. -/
theorem searchToolsByVector_no_propagation_witness :
    (searchToolsByVector true (fun _ => none) (.error "provider down")
        (fun _ => .ok []) (some ["weather"]) = [])
    ∧ (searchToolsByVector true (fun _ => none) (.ok [(1 : ℚ)])
        (fun _ => .error "query failed") none = []) := by
  exact ⟨(searchToolsByVector_no_propagation (fun _ => none) (.error "provider down")
            (fun _ => .ok []) (some ["weather"])).2.1 "provider down" rfl,
         (searchToolsByVector_no_propagation (fun _ => none) (.ok [(1 : ℚ)])
            (fun _ => .error "query failed") none).2.2 [(1 : ℚ)] "query failed" rfl rfl⟩

/-- Bad metadata in the sense of claim C10: the metadata column of the
record is not a string, or is a string on which the JSON parse throws. -/
def badMetadata (parseMeta : String → Option ToolMeta) (r : VectorEmbedding) : Prop :=
  (∀ s, r.metadata ≠ .strVal s) ∨ (∃ s, r.metadata = .strVal s ∧ parseMeta s = none)

/-- C10.  With a nonempty server name filter, the post filter keeps a
row precisely when its metadata is a string that parses to a document
whose server name is in the supplied set; hence every row with non
string or unparsable metadata is excluded from the output regardless of
its similarity.  Without a filter the output is the transformation of
every row returned by the search, and a row with bad metadata is
returned through the heuristic text parsing. -/
theorem serverFilter_requires_parsable_metadata :
    ∀ (parseMeta : String → Option ToolMeta) (l : List String)
      (embedRes : Except String (List ℚ))
      (searchFn : List ℚ → Except String (List (VectorEmbedding × ℚ)))
      (p : VectorEmbedding × ℚ),
      (metaServerAllowed parseMeta l p = true ↔
        ∃ s o n, p.1.metadata = .strVal s ∧ parseMeta s = some o
          ∧ o.serverName = some n ∧ n ∈ l)
      ∧ (badMetadata parseMeta p.1 →
          p ∉ (searchByText embedRes searchFn).filter (metaServerAllowed parseMeta l))
      ∧ (l ≠ [] →
          searchToolsByVector true parseMeta embedRes searchFn (some l)
            = ((searchByText embedRes searchFn).filter
                (metaServerAllowed parseMeta l)).map (transformResult parseMeta))
      ∧ (searchToolsByVector true parseMeta embedRes searchFn none
            = (searchByText embedRes searchFn).map (transformResult parseMeta))
      ∧ (badMetadata parseMeta p.1 → transformResult parseMeta p = heuristicEntry p)
      ∧ (p ∈ searchByText embedRes searchFn →
          transformResult parseMeta p ∈
            searchToolsByVector true parseMeta embedRes searchFn none) := by
  intro parseMeta l embedRes searchFn p
  have hbadFalse : badMetadata parseMeta p.1 → metaServerAllowed parseMeta l p = false := by
    intro hbad
    rcases hbad with hns | ⟨s, hs, hparse⟩
    · cases hm : p.1.metadata with
      | strVal s => exact absurd hm (hns s)
      | docVal o => simp [metaServerAllowed, hm]
      | nullVal => simp [metaServerAllowed, hm]
    · simp [metaServerAllowed, hs, hparse]
  refine ⟨?_, ?_, ?_, ?_, ?_, ?_⟩
  · constructor
    · intro h
      cases hm : p.1.metadata with
      | strVal s =>
        cases hp : parseMeta s with
        | some o =>
          cases hn : o.serverName with
          | some n =>
            refine ⟨s, o, n, rfl, hp, hn, ?_⟩
            have h2 : l.contains n = true := by
              simpa [metaServerAllowed, hm, hp, hn] using h
            simpa using h2
          | none => simp [metaServerAllowed, hm, hp, hn] at h
        | none => simp [metaServerAllowed, hm, hp] at h
      | docVal o => simp [metaServerAllowed, hm] at h
      | nullVal => simp [metaServerAllowed, hm] at h
    · rintro ⟨s, o, n, hm, hp, hn, hmem⟩
      simp [metaServerAllowed, hm, hp, hn, hmem]
  · intro hbad hmem
    exact absurd ((List.mem_filter.mp hmem).2) (by simp [hbadFalse hbad])
  · intro hl
    have : 0 < l.length := List.length_pos.mpr hl
    simp [searchToolsByVector, this]
  · simp [searchToolsByVector]
  · intro hbad
    rcases hbad with hns | ⟨s, hs, hparse⟩
    · cases hm : p.1.metadata with
      | strVal s => exact absurd hm (hns s)
      | docVal o => simp [transformResult, hm]
      | nullVal => simp [transformResult, hm]
    · simp [transformResult, hs, hparse]
  · intro hmem
    simp only [searchToolsByVector, Bool.true_eq_false, if_false, reduceIte]
    exact List.mem_map_of_mem _ hmem

/-- Witness for the C10 theorem: a record whose metadata is not a string
is rejected by the post filter for the supplied server list, yet its
heuristic transformation is present in the unfiltered output of the same
search. -/
theorem serverFilter_requires_parsable_metadata_witness :
    ((cexRecord, (1 : ℚ)) ∉
        (searchByText (.ok [(1 : ℚ)]) (fun _ => .ok [(cexRecord, (1 : ℚ))])).filter
          (metaServerAllowed (fun _ => none) ["weather"]))
    ∧ transformResult (fun _ => none) (cexRecord, (1 : ℚ))
        = heuristicEntry (cexRecord, (1 : ℚ))
    ∧ transformResult (fun _ => none) (cexRecord, (1 : ℚ)) ∈
        searchToolsByVector true (fun _ => none) (.ok [(1 : ℚ)])
          (fun _ => .ok [(cexRecord, (1 : ℚ))]) none := by
  have h := serverFilter_requires_parsable_metadata (fun _ => none) ["weather"]
    (.ok [(1 : ℚ)]) (fun _ => .ok [(cexRecord, (1 : ℚ))]) (cexRecord, (1 : ℚ))
  have hbad : badMetadata (fun _ => none) cexRecord := by
    left
    intro s
    simp [cexRecord]
  exact ⟨h.2.1 hbad, h.2.2.2.2.1 hbad, h.2.2.2.2.2 (by simp [searchByText])⟩

/-! ## Claim C9: request parameter handling of the search controller

Embedding of the searchTools controller of vectorSearchController.ts.
The JavaScript numeric parser builtins are modelled in their decimal
behavior; the controller then replaces a NaN result - and, through the
JavaScript or operator, also a parsed zero, which is falsy - by the
default, and clamps with Math.min and Math.max. -/

/-- Split an optional leading sign; true means negative. -/
def signSplit : List Char → Bool × List Char
  | '-' :: cs => (true, cs)
  | '+' :: cs => (false, cs)
  | cs => (false, cs)

/-- Leading decimal digits of a character list, as digit values. -/
def decDigits : List Char → List ℕ
  | [] => []
  | c :: cs => if c.isDigit then (c.toNat - 48) :: decDigits cs else []

/-- Value of a digit list read left to right. -/
def digitsToNat (ds : List ℕ) : ℕ := ds.foldl (fun a d => 10 * a + d) 0

/-- Models the decimal behavior of the JavaScript parseInt builtin as
the controller calls it: skip leading whitespace, read an optional sign
and the leading decimal digits; none models NaN.  The hexadecimal form
and explicit radixes are outside the controller usage and not
modelled. -/
def jsParseInt (s : String) : Option ℤ :=
  let cs := dropWsRun s.data
  let sgn := signSplit cs
  let ds := decDigits sgn.2
  if ds.isEmpty then none
  else some (if sgn.1 then -(digitsToNat ds : ℤ) else (digitsToNat ds : ℤ))

/-- Models the decimal behavior of the JavaScript parseFloat builtin:
skip leading whitespace, read an optional sign, an integer part and an
optional fraction part after a dot; none models NaN (no digits at all).
Exponent forms are outside the controller usage and not modelled. -/
def jsParseFloat (s : String) : Option ℚ :=
  let cs := dropWsRun s.data
  let sgn := signSplit cs
  let ipart := decDigits sgn.2
  let fpart := match sgn.2.drop ipart.length with
    | '.' :: cs2 => decDigits cs2
    | _ => []
  if ipart.isEmpty && fpart.isEmpty then none
  else
    let v : ℚ := (digitsToNat ipart : ℚ) + (digitsToNat fpart : ℚ) / (10 : ℚ) ^ fpart.length
    some (if sgn.1 then -v else v)

/-- Effective limit computed by searchTools: the destructured numeric
default 10 when the parameter is absent (parseInt coerces it back from
the string form), then parseInt, then the JavaScript or operator
replacing NaN and the falsy 0 by 10, then the clamp into [1, 100]. -/
def effectiveLimit (limitParam : Option String) : ℤ :=
  let parsed := jsParseInt (limitParam.getD "10")
  let base : ℤ := match parsed with
    | none => 10
    | some n => if n = 0 then 10 else n
  min (max base 1) 100

/-- Effective threshold computed by searchTools: the destructured
numeric default 7/10 when the parameter is absent, then parseFloat, then
the JavaScript or operator replacing NaN and the falsy 0 by 7/10, then
the clamp into [0, 1]. -/
def effectiveThreshold (thresholdParam : Option String) : ℚ :=
  let parsed := jsParseFloat (thresholdParam.getD "0.7")
  let base : ℚ := match parsed with
    | none => 7/10
    | some x => if x = 0 then 7/10 else x
  min (max base 0) 1

/-- Servers parameter handling for a string valued parameter: the falsy
empty string leaves the filter undefined, otherwise split at commas,
trim every piece and drop the empty ones.  (The array valued branch of
the source is not involved in any claim and is not modelled.) -/
def parseServersParam : Option String → Option (List String)
  | none => none
  | some s =>
      if s = "" then none
      else some (((s.split (fun c => c = ',')).map String.trim).filter (fun x => x != ""))

/-- Value of the query request parameter: absent, a string, or some non
string shape such as an array. -/
inductive QueryParam where
  | missing
  | str (s : String)
  | nonString
deriving DecidableEq

/-- Response of the searchTools controller: a client error carrying
status 400, or a success payload echoing the effective parameters. -/
inductive SearchResponse where
  | badRequest (message : String)
  | ok (query : String) (results : List ToolSearchResult) (total : ℕ)
       (limit : ℤ) (threshold : ℚ) (servers : Option (List String))
deriving DecidableEq

/-- Embedding of the searchTools controller: reject a missing, non
string or empty (falsy) query with a 400 client error; otherwise compute
the effective numeric parameters, parse the servers filter, run the
search and wrap its results.  The search pipeline enters as a parameter
and is consulted only on the success path. -/
def searchTools
    (search : String → ℤ → ℚ → Option (List String) → List ToolSearchResult)
    (queryParam : QueryParam) (limitParam thresholdParam serversParam : Option String) :
    SearchResponse :=
  match queryParam with
  | .str q =>
      if q = "" then .badRequest "Query parameter is required and must be a string"
      else
        let limitNum := effectiveLimit limitParam
        let thresholdNum := effectiveThreshold thresholdParam
        let serverNames := parseServersParam serversParam
        let results := search q limitNum thresholdNum serverNames
        .ok q results results.length limitNum thresholdNum serverNames
  | _ => .badRequest "Query parameter is required and must be a string"

lemma jsParseFloat_default : jsParseFloat "0.7" = some (7/10) := by
  have h1 : jsParseFloat "0.7"
      = some ((digitsToNat [0] : ℚ) + (digitsToNat [7] : ℚ) / (10 : ℚ) ^ 1) := rfl
  rw [h1]
  norm_num [digitsToNat]

lemma jsParseFloat_zero : jsParseFloat "0" = some 0 := by
  have h1 : jsParseFloat "0"
      = some ((digitsToNat [0] : ℚ) + (digitsToNat ([] : List ℕ) : ℚ) / (10 : ℚ) ^ 0) := rfl
  rw [h1]
  norm_num [digitsToNat]

/-- C9 (amended).  For every request: the effective limit lies in
[1, 100] and the effective threshold in [0, 1]; an absent parameter, a
non numeric parameter, and - through the falsy JavaScript or operator -
also a parameter parsing to the number zero are replaced by the defaults
10 and 7/10; every other numeric value is clamped into the range rather
than rejected.  A request with a missing or non string query is answered
with the 400 client error response before any search work: the response
does not depend on the search pipeline at all.  The claim as frozen
fails only on zero valued parameters (see the counterexample): a
threshold of 0 is numeric and inside [0, 1] yet is replaced by the
default 7/10, and a limit of 0 becomes the default 10 rather than the
clamp result 1. -/
theorem searchTools_param_handling :
    ∀ (search search2 : String → ℤ → ℚ → Option (List String) → List ToolSearchResult)
      (queryParam : QueryParam) (lp tp sp : Option String),
      (1 ≤ effectiveLimit lp ∧ effectiveLimit lp ≤ 100)
      ∧ (0 ≤ effectiveThreshold tp ∧ effectiveThreshold tp ≤ 1)
      ∧ (lp = none → effectiveLimit lp = 10)
      ∧ (∀ s, lp = some s → (jsParseInt s = none ∨ jsParseInt s = some 0) →
          effectiveLimit lp = 10)
      ∧ (∀ s n, lp = some s → jsParseInt s = some n → n ≠ 0 →
          effectiveLimit lp = min (max n 1) 100)
      ∧ (tp = none → effectiveThreshold tp = 7/10)
      ∧ (∀ s, tp = some s → (jsParseFloat s = none ∨ jsParseFloat s = some 0) →
          effectiveThreshold tp = 7/10)
      ∧ (∀ s x, tp = some s → jsParseFloat s = some x → x ≠ 0 →
          effectiveThreshold tp = min (max x 0) 1)
      ∧ ((queryParam = .missing ∨ queryParam = .nonString) →
          searchTools search queryParam lp tp sp
              = .badRequest "Query parameter is required and must be a string"
            ∧ searchTools search queryParam lp tp sp
              = searchTools search2 queryParam lp tp sp) := by
  intro search search2 queryParam lp tp sp
  refine ⟨⟨?_, ?_⟩, ⟨?_, ?_⟩, ?_, ?_, ?_, ?_, ?_, ?_, ?_⟩
  · exact le_min (le_max_right _ _) (by norm_num)
  · exact min_le_right _ _
  · exact le_min (le_max_right _ _) (by norm_num)
  · exact min_le_right _ _
  · intro h
    subst h
    decide
  · intro s h hparse
    subst h
    rcases hparse with hp | hp
    · simp [effectiveLimit, hp]
    · simp [effectiveLimit, hp]
  · intro s n h hp hn
    subst h
    simp [effectiveLimit, hp, hn]
  · intro h
    subst h
    simp [effectiveThreshold, jsParseFloat_default]
    norm_num
  · intro s h hparse
    subst h
    rcases hparse with hp | hp
    · simp [effectiveThreshold, hp]
      norm_num
    · simp [effectiveThreshold, hp]
      norm_num
  · intro s x h hp hx
    subst h
    simp [effectiveThreshold, hp, hx]
  · intro h
    rcases h with h | h <;> subst h <;> exact ⟨rfl, rfl⟩

/-- C9 counterexample.  The request parameter value 0 refutes the claim
as frozen: the string 0 parses to the number 0, which lies inside both
valid ranges (or, for the limit, would clamp to 1), yet the controller
replaces it by the defaults - threshold 7/10 instead of 0, limit 10
instead of the clamp result 1 - because 0 is falsy in the JavaScript or
expression applied before the clamp. -/
theorem searchTools_zero_param_cex :
    jsParseFloat "0" = some 0
    ∧ (0 : ℚ) ≤ 0 ∧ (0 : ℚ) ≤ 1
    ∧ effectiveThreshold (some "0") = 7/10
    ∧ effectiveThreshold (some "0") ≠ 0
    ∧ jsParseInt "0" = some 0
    ∧ effectiveLimit (some "0") = 10
    ∧ min (max (0 : ℤ) 1) 100 = 1
    ∧ effectiveLimit (some "0") ≠ min (max (0 : ℤ) 1) 100 := by
  have ht : effectiveThreshold (some "0") = 7/10 := by
    simp [effectiveThreshold, jsParseFloat_zero]
    norm_num
  have hl : effectiveLimit (some "0") = 10 := by decide
  refine ⟨jsParseFloat_zero, le_refl 0, by norm_num, ht, ?_, by decide, hl, by decide, ?_⟩
  · rw [ht]; norm_num
  · rw [hl]; decide

/-- Witness for the C9 theorem: clamping of the out of range limit 500,
the default threshold for an absent parameter, and the 400 rejection of
a missing query irrespective of the search pipeline, all by applying the
theorem at concrete inputs. -/
theorem searchTools_param_handling_witness :
    effectiveLimit (some "500") = min (max (500 : ℤ) 1) 100
    ∧ effectiveThreshold none = 7/10
    ∧ searchTools (fun _ _ _ _ => []) .missing (some "500") none none
        = .badRequest "Query parameter is required and must be a string" := by
  have h := searchTools_param_handling (fun _ _ _ _ => [])
    (fun _ _ _ _ => [{ serverName := "weather", toolName := "getForecast",
                       description := "", inputSchema := none, similarity := 1,
                       searchableText := "" }])
    .missing (some "500") none none
  exact ⟨h.2.2.2.2.1 "500" 500 rfl (by decide) (by decide),
         h.2.2.2.2.2.1 rfl,
         (h.2.2.2.2.2.2.2.2 (Or.inl rfl)).1⟩

end Mcphub
